import Mathlib

/-!
Verification development for the chispa card-creation tool.

The Python sources (`chispa/cli.py`, `chispa/anki_client.py`,
`chispa/dictionary.py`, `chispa/audio_gen.py`, `chispa/image_gen.py`,
`chispa/config.py`) are embedded shallowly: pure helpers become Lean
functions over `String`/`List Char`, the external collaborators
(dictionary lookup, image generation, narration, flashcard store) become
oracle functions collected in a `Collab` record, the interactive prompts
become a list of input strings consumed in order (an empty list models
end-of-input, which the CLI treats like a keyboard interrupt), and the
observable actions of a run are collected in a trace of `Ev` events.
Python strings are modelled as Lean strings; the ASCII fragment of
Python's case folding and whitespace set is used, which covers every
concrete string appearing in the source and the spec.
-/

namespace Chispa

/-- Whitespace test matching Python `str.strip` / `str.split` (ASCII subset). -/
def isPySpace (c : Char) : Bool :=
  c == ' ' || c == '\t' || c == '\n' || c == '\r' || c == '\x0b' || c == '\x0c'

/-- Removal of trailing characters satisfying a predicate. -/
def dropEndWhile (p : Char → Bool) (l : List Char) : List Char :=
  (l.reverse.dropWhile p).reverse

/-- Python `str.strip()` on character lists. -/
def stripL (l : List Char) : List Char :=
  dropEndWhile isPySpace (l.dropWhile isPySpace)

/-- Python `str.strip()`. -/
def pyStrip (s : String) : String := String.mk (stripL s.data)

/-- Python `str.split("\n")` on character lists. -/
def splitNl : List Char → List (List Char)
  | [] => [[]]
  | c :: rest =>
    if c == '\n' then [] :: splitNl rest
    else
      match splitNl rest with
      | [] => [[c]]
      | h :: t => (c :: h) :: t

/-- Python `str.split("\n")`, as `cmd_batch` uses on the file text. -/
def pyLinesList (s : String) : List String := (splitNl s.data).map String.mk

/-- Python `sep.join(items)`. -/
def joinWith (sep : String) : List String → String
  | [] => ""
  | [x] => x
  | x :: y :: rest => x ++ sep ++ joinWith sep (y :: rest)

/-- Membership test for a single character, as Python `ch in s`. -/
def hasChar (ch : Char) : List Char → Bool
  | [] => false
  | c :: rest => c == ch || hasChar ch rest

/-- Characters before the first `|`, as Python `s.split("|")[0]`. -/
def beforePipe : List Char → List Char
  | [] => []
  | c :: rest => if c == '|' then [] else c :: beforePipe rest

/-- Characters after the first `|`, as Python `s.split("|", 1)[1]`. -/
def afterPipe : List Char → List Char
  | [] => []
  | c :: rest => if c == '|' then rest else afterPipe rest

def containsPipeS (s : String) : Bool := hasChar '|' s.data

def beforePipeS (s : String) : String := String.mk (beforePipe s.data)

def afterPipeS (s : String) : String := String.mk (afterPipe s.data)

/-- Python `s.startswith("#")`. -/
def startsHashS (s : String) : Bool :=
  match s.data with
  | '#' :: _ => true
  | _ => false

/-- ASCII lower-casing of one character, the fragment of Python `str.lower`
used by the CLI's comparisons with "r" and "s". -/
def asciiLower (c : Char) : Char :=
  if 'A' ≤ c ∧ c ≤ 'Z' then Char.ofNat (c.toNat + 32) else c

/-- Python `str.lower()` (ASCII fragment). -/
def pyLowerS (s : String) : String := String.mk (s.data.map asciiLower)

/-- Decimal digit value of a character, if it is a digit. -/
def digitVal? (c : Char) : Option Nat :=
  if '0' ≤ c ∧ c ≤ '9' then some (c.toNat - '0'.toNat) else none

/-- Value of a digit run, accumulated positionally. -/
def digitsValAcc? (acc : Nat) : List Char → Option Nat
  | [] => some acc
  | c :: rest =>
    match digitVal? c with
    | some d => digitsValAcc? (acc * 10 + d) rest
    | none => none

/-- Python `int(s)` on an already-stripped string: optional sign followed by
a non-empty digit run, `none` modelling `ValueError`. -/
def pyIntOf? (s : String) : Option Int :=
  match s.data with
  | [] => none
  | '-' :: rest => if rest.isEmpty then none else (digitsValAcc? 0 rest).map (fun n => -(n : Int))
  | '+' :: rest => if rest.isEmpty then none else (digitsValAcc? 0 rest).map (fun n => (n : Int))
  | l => (digitsValAcc? 0 l).map (fun n => (n : Int))

/-- Python `str.split()` with no argument: whitespace-separated words,
empty pieces discarded. -/
def splitWsL : List Char → List (List Char)
  | [] => []
  | c :: rest =>
    if isPySpace c then splitWsL rest
    else
      match rest with
      | [] => [[c]]
      | d :: _ =>
        if isPySpace d then [c] :: splitWsL rest
        else
          match splitWsL rest with
          | [] => [[c]]
          | w :: ws => (c :: w) :: ws

/-- Search for two consecutive underscores, the effect of
`re.compile(r"_\x7b2,\x7d").search` from `cli.py`. -/
def hasTwoUnderscores : List Char → Bool
  | c :: d :: rest => (c == '_' && d == '_') || hasTwoUnderscores (d :: rest)
  | _ => false

/-- Case-insensitive equality of two character lists (ASCII folding). -/
def lowerEqCI (a b : List Char) : Bool := a.map asciiLower == b.map asciiLower

/-- Case-insensitive test that `word` occurs at the head of `l`. -/
def ciMatchAt (word l : List Char) : Bool := lowerEqCI word (l.take word.length)

/-- Left-to-right, non-overlapping, case-insensitive replacement of the
literal `word` by `blank`, the effect of
`re.compile(re.escape(word), re.IGNORECASE).sub(blank, sentence)` from
`anki_client.replace_word_with_blank`. The `Nat` argument counts
characters still to skip after a match was consumed. -/
def subCIAux (word blank : List Char) : List Char → Nat → List Char
  | [], _ + 1 => []
  | _ :: rest, k + 1 => subCIAux word blank rest k
  | [], 0 => if word.isEmpty then blank else []
  | c :: rest, 0 =>
    if word.isEmpty then blank ++ c :: subCIAux word blank rest 0
    else if ciMatchAt word (c :: rest) then blank ++ subCIAux word blank rest (word.length - 1)
    else c :: subCIAux word blank rest 0

/-! ## config.py -/

/-- Default Spanish deck name from `config.py` (`ANKI_DECK_SPANISH`). -/
def ANKI_DECK_SPANISH : String := "esp"

/-- Default English deck name from `config.py` (`ANKI_DECK_ENGLISH`). -/
def ANKI_DECK_ENGLISH : String := "en"

/-! ## dictionary.py -/

/-- One candidate sense of a looked-up word (`dictionary.WordMeaning`);
the source field `example` is written `example_` because `example` is a
reserved word in Lean. -/
structure WordMeaning where
  definition : String
  part_of_speech : String
  example_ : String
  example_blanked : String
  translation : String
deriving DecidableEq

/-- Outcome of one dictionary query (`dictionary.WordLookupResult`). -/
structure WordLookupResult where
  word : String
  meanings : List WordMeaning
deriving DecidableEq

/-- Derived ambiguity flag (`WordLookupResult.is_ambiguous`). -/
def WordLookupResult.is_ambiguous (r : WordLookupResult) : Bool := r.meanings.length > 1

/-- Python list indexing `l[i]` with negative-index wrap-around;
`none` models `IndexError`. -/
def pyIndex {α : Type} (l : List α) (i : Int) : Option α :=
  if 0 ≤ i then l[i.toNat]?
  else if -(l.length : Int) ≤ i then l[((l.length : Int) + i).toNat]?
  else none

/-- The source's `WordLookupResult.get_meaning`, which returns
`self.meanings[index - 1]` using Python indexing. -/
def WordLookupResult.get_meaning (r : WordLookupResult) (index : Int) : Option WordMeaning :=
  pyIndex r.meanings (index - 1)

/-! ## image_gen.py / audio_gen.py (pure reference builders) -/

/-- Anki image reference (`image_gen.get_image_reference`). -/
def get_image_reference (word : String) : String :=
  "<img src=\"chispa_" ++ word ++ ".png\">"

/-- Anki audio reference (`audio_gen.get_audio_reference`). -/
def get_audio_reference (word : String) : String :=
  "[sound:chispa_" ++ word ++ ".mp3]"

/-- The `BLANK_PATTERN.search` test from `cli.py`: does the text contain
two or more consecutive underscores? -/
def BLANK_PATTERN_search (s : String) : Bool := hasTwoUnderscores s.data

/-! ## anki_client.py -/

/-- Assembled card content (`anki_client.AnkiCard`). -/
structure AnkiCard where
  word : String
  definition : String
  sentence_blank : String
  sentence_full : String
  image_ref : String
  audio_ref : String
deriving DecidableEq

/-- Blank pattern for a word/phrase (`anki_client.create_blank_for_word`):
one `___` token per whitespace-separated word, space-joined. -/
def create_blank_for_word (word : String) : String :=
  joinWith " " (List.replicate (splitWsL word.data).length "___")

/-- Case-insensitive literal replacement
(`anki_client.replace_word_with_blank`). -/
def replace_word_with_blank (sentence word blank : String) : String :=
  String.mk (subCIAux word.data blank.data sentence.data 0)

/-- Card assembly from lookup results (`anki_client.create_card_data`). -/
def create_card_data (word definition example_ example_blanked translation image_ref audio_ref : String)
    (lang : String) : AnkiCard :=
  let sentence_blanked :=
    if example_blanked ≠ "" then example_blanked
    else replace_word_with_blank example_ word (create_blank_for_word word)
  if lang = "en" then
    ⟨word, definition, sentence_blanked, example_, image_ref, audio_ref⟩
  else
    ⟨word, definition, sentence_blanked ++ "<br>" ++ translation,
     example_ ++ "<br>" ++ translation, image_ref, audio_ref⟩

/-! ## Collaborator oracles and event traces -/

/-- Outcome of `dictionary.lookup_word`: an exception or a result. -/
inductive LookupOutcome where
  | err (msg : String)
  | ok (result : WordLookupResult)
deriving DecidableEq

/-- Observable actions of a run. -/
inductive Ev where
  | availCheck
  | lookupEv (word : String) (context : Option String)
  | imageGen (prompt : String) (word : String)
  | audioGen (text : String) (word : String)
  | addNote (card : AnkiCard) (deck : String)
  | fileWrite (content : String)
deriving DecidableEq

/-- External collaborators of the CLI, per spec section 6: the dictionary
lookup, image generation (true = success, false = raised), narration
(likewise), the flashcard store (`none` models `AnkiConnectError`), and
the store availability probe. -/
structure Collab where
  lookupO : String → Option String → LookupOutcome
  imageO : String → String → Bool
  audioO : String → String → Bool
  storeO : AnkiCard → String → Option Nat
  availO : Bool

/-- The enrichment pipeline `cli.create_card_for_meaning`: image step
(failures swallowed), audio step (skipped when the text to narrate
contains a blank marker, failures swallowed), card assembly, store call
(`AnkiConnectError` caught, reported as `false`). Totality of this
function models the source's property of never raising once a meaning is
selected. Returns the event trace, the assembled card and the success
flag. -/
def create_card_for_meaning (co : Collab) (word : String) (m : WordMeaning) (lang : String) :
    List Ev × AnkiCard × Bool :=
  let image_prompt := if lang = "en" then m.example_ else m.translation
  let audio_text := m.example_
  let deck := if lang = "en" then ANKI_DECK_ENGLISH else ANKI_DECK_SPANISH
  let image_ref := if co.imageO image_prompt word then get_image_reference word else ""
  let audio_part : List Ev × String :=
    if BLANK_PATTERN_search audio_text then ([], "")
    else if co.audioO audio_text word then ([Ev.audioGen audio_text word], get_audio_reference word)
    else ([Ev.audioGen audio_text word], "")
  let card := create_card_data word m.definition m.example_ m.example_blanked m.translation
    image_ref audio_part.2 lang
  (Ev.imageGen image_prompt word :: audio_part.1 ++ [Ev.addNote card deck], card,
   (co.storeO card deck).isSome)

/-! ## cli.py: cmd_add -/

/-- Python truthiness of the optional context string. -/
def pyTruthy : Option String → Bool
  | none => false
  | some s => s != ""

/-- The hint-accumulation assignment of `cmd_add` (cli.py lines 130-132 and
148-150): `current_context = f"..; .." if current_context else hint`,
executed only when the entered hint is non-empty. -/
def add_retry_context (current : Option String) (hint : String) : Option String :=
  if hint ≠ "" then
    some (if pyTruthy current then current.getD "" ++ "; " ++ hint else hint)
  else current

/-- The identical hint-accumulation assignment of `cmd_batch`
(cli.py lines 276-278). -/
def batch_retry_context (current : Option String) (hint : String) : Option String :=
  if hint ≠ "" then
    some (if pyTruthy current then current.getD "" ++ "; " ++ hint else hint)
  else current

/-- Result of the interactive resolution loop of `cmd_add`. -/
inductive AddRes where
  | abort
  | chosen (result : WordLookupResult) (m : WordMeaning)

/-- Placeholder meaning used only under an already-established bound. -/
def mdefault : WordMeaning := ⟨"", "", "", "", ""⟩

/-- The interactive selection/retry loop of `cmd_add` (cli.py lines
97-166), driven by the remaining user inputs. Each recursive step
consumes at least one input; exhausting the inputs models end-of-input /
`KeyboardInterrupt`, which the source answers by returning exit code 1. -/
def add_interact (co : Collab) (lang word : String) :
    Option String → WordLookupResult → List String → List Ev × AddRes
  | _, _, [] => ([], .abort)
  | ctx, r, raw :: rest =>
    let choice := pyStrip raw
    if r.meanings.length = 1 then
      if choice = "" then ([], .chosen r (r.meanings.getD 0 mdefault))
      else if pyLowerS choice = "r" then
        match rest with
        | [] => ([], .abort)
        | hintRaw :: rest2 =>
          let hint := pyStrip hintRaw
          let ctx2 := add_retry_context ctx hint
          match co.lookupO word ctx2 with
          | .err _ => ([Ev.lookupEv word ctx2], .abort)
          | .ok r2 =>
            if r2.meanings.isEmpty then ([Ev.lookupEv word ctx2], .abort)
            else
              let next := add_interact co lang word ctx2 r2 rest2
              (Ev.lookupEv word ctx2 :: next.1, next.2)
      else add_interact co lang word ctx r rest
    else
      if pyLowerS choice = "r" then
        match rest with
        | [] => ([], .abort)
        | hintRaw :: rest2 =>
          let hint := pyStrip hintRaw
          let ctx2 := add_retry_context ctx hint
          match co.lookupO word ctx2 with
          | .err _ => ([Ev.lookupEv word ctx2], .abort)
          | .ok r2 =>
            if r2.meanings.isEmpty then ([Ev.lookupEv word ctx2], .abort)
            else
              let next := add_interact co lang word ctx2 r2 rest2
              (Ev.lookupEv word ctx2 :: next.1, next.2)
      else
        match pyIntOf? choice with
        | some idx =>
          if 1 ≤ idx ∧ idx ≤ (r.meanings.length : Int) then
            ([], .chosen r (r.meanings.getD (idx - 1).toNat mdefault))
          else add_interact co lang word ctx r rest
        | none => add_interact co lang word ctx r rest

/-- The single-word flow `cli.cmd_add`: inline `word | hint` parsing,
lookup/selection loop, availability check, normalization, enrichment and
store submission. Returns the event trace and the exit code. -/
def cmd_add (co : Collab) (wordArg : String) (context : Option String) (lang : String)
    (inputs : List String) : List Ev × Nat :=
  let wc : String × Option String :=
    if containsPipeS wordArg then
      let w := pyStrip (beforePipeS wordArg)
      let inline_hint := pyStrip (afterPipeS wordArg)
      (w, some (if pyTruthy context then context.getD "" ++ "; " ++ inline_hint else inline_hint))
    else (wordArg, context)
  let word := wc.1
  let current_context := wc.2
  match co.lookupO word current_context with
  | .err _ => ([Ev.lookupEv word current_context], 1)
  | .ok r =>
    if r.meanings.isEmpty then ([Ev.lookupEv word current_context], 1)
    else
      let sel := add_interact co lang word current_context r inputs
      match sel.2 with
      | .abort => (Ev.lookupEv word current_context :: sel.1, 1)
      | .chosen rFinal m =>
        let evs := Ev.lookupEv word current_context :: sel.1 ++ [Ev.availCheck]
        if co.availO then
          let normalized := rFinal.word
          let cc := create_card_for_meaning co normalized m lang
          (evs ++ cc.1, if cc.2.2 then 0 else 1)
        else (evs, 1)

/-! ## cli.py: cmd_batch -/

/-- Decision of the per-word interactive loop of `cmd_batch`. -/
inductive BSel where
  | sel (result : WordLookupResult) (m : WordMeaning)
  | fail
  | intr

/-- The per-word selection/skip/retry loop of `cmd_batch` (cli.py lines
251-311), driven by the remaining user inputs; also returns the inputs
left unconsumed for the following words. -/
def batch_interact (co : Collab) (lang word : String) :
    Option String → WordLookupResult → List String → List Ev × BSel × List String
  | _, _, [] => ([], .intr, [])
  | ctx, r, raw :: rest =>
    let choice := pyStrip raw
    if choice = "" ∧ r.meanings.length = 1 then
      ([], .sel r (r.meanings.getD 0 mdefault), rest)
    else if pyLowerS choice = "s" then ([], .fail, rest)
    else if pyLowerS choice = "r" then
      match rest with
      | [] => ([], .intr, [])
      | hintRaw :: rest2 =>
        let retry_hint := pyStrip hintRaw
        let ctx2 := batch_retry_context ctx retry_hint
        match co.lookupO word ctx2 with
        | .err _ => ([Ev.lookupEv word ctx2], .fail, rest2)
        | .ok r2 =>
          if r2.meanings.isEmpty then ([Ev.lookupEv word ctx2], .fail, rest2)
          else
            let next := batch_interact co lang word ctx2 r2 rest2
            (Ev.lookupEv word ctx2 :: next.1, next.2.1, next.2.2)
    else if r.meanings.length > 1 then
      match pyIntOf? choice with
      | some idx =>
        if 1 ≤ idx ∧ idx ≤ (r.meanings.length : Int) then
          ([], .sel r (r.meanings.getD (idx - 1).toNat mdefault), rest)
        else batch_interact co lang word ctx r rest
      | none => batch_interact co lang word ctx r rest
    else batch_interact co lang word ctx r rest

/-- Outcome recorded for one batch word. -/
inductive BOutcome where
  | createdB
  | failedB
  | interruptedB

/-- Processing of a single batch word (cli.py lines 230-323): lookup with
the file hint, interactive resolution, then enrichment and store
submission under the normalized spelling. -/
def batch_word (co : Collab) (lang word : String) (hint : Option String) (inputs : List String) :
    List Ev × BOutcome × List String :=
  match co.lookupO word hint with
  | .err _ => ([Ev.lookupEv word hint], .failedB, inputs)
  | .ok r =>
    if r.meanings.isEmpty then ([Ev.lookupEv word hint], .failedB, inputs)
    else
      let it := batch_interact co lang word hint r inputs
      match it.2.1 with
      | .intr => (Ev.lookupEv word hint :: it.1, .interruptedB, it.2.2)
      | .fail => (Ev.lookupEv word hint :: it.1, .failedB, it.2.2)
      | .sel rFinal m =>
        let normalized := rFinal.word
        let cc := create_card_for_meaning co normalized m lang
        (Ev.lookupEv word hint :: it.1 ++ cc.1,
         if cc.2.2 then .createdB else .failedB, it.2.2)

/-- Python dict lookup `d.get(k)` over assignments listed in program
order: the latest assignment wins. -/
def dictGet (d : List (String × String)) (k : String) : Option String :=
  (d.reverse.find? (fun p => p.1 == k)).map (fun p => p.2)

/-- Parsing of the batch file lines (cli.py lines 204-219): skip blank and
comment lines, split each data line on the first pipe into word and hint,
record non-empty hints as dict assignments in file order. -/
def parse_batch_lines : List String → List String × List (String × String)
  | [] => ([], [])
  | line :: rest =>
    let l := pyStrip line
    let tailPart := parse_batch_lines rest
    if l = "" ∨ startsHashS l then tailPart
    else
      let w := if containsPipeS l then pyStrip (beforePipeS l) else l
      let h := if containsPipeS l then pyStrip (afterPipeS l) else ""
      (w :: tailPart.1, if h ≠ "" then (w, h) :: tailPart.2 else tailPart.2)

/-- The word loop of `cmd_batch` (cli.py lines 230-323): outcomes are
recorded under the original spelling read from the file; an interrupt
abandons the rest of the run. Returns events, created words, failed
words, interrupt flag. -/
def batch_run (co : Collab) (lang : String) (hints : List (String × String)) :
    List String → List String → List Ev × List String × List String × Bool
  | [], _ => ([], [], [], false)
  | w :: ws, inputs =>
    let bw := batch_word co lang w (dictGet hints w) inputs
    match bw.2.1 with
    | .interruptedB => (bw.1, [], [], true)
    | .createdB =>
      let next := batch_run co lang hints ws bw.2.2
      (bw.1 ++ next.1, w :: next.2.1, next.2.2.1, next.2.2.2)
    | .failedB =>
      let next := batch_run co lang hints ws bw.2.2
      (bw.1 ++ next.1, next.2.1, w :: next.2.2.1, next.2.2.2)

/-- The checkpoint filter of `cmd_batch` (cli.py lines 335-342): keep
blank and comment lines, keep data lines whose headword is not in the
created set. -/
def remaining_lines : List String → List String → List String
  | [], _ => []
  | line :: rest, created =>
    let stripped := pyStrip line
    if stripped = "" ∨ startsHashS stripped then line :: remaining_lines rest created
    else
      let w := if containsPipeS stripped then pyStrip (beforePipeS stripped) else stripped
      if w ∈ created then remaining_lines rest created
      else line :: remaining_lines rest created

/-- The batch flow `cli.cmd_batch`: existence check, availability check,
file parsing from `path.read_text().strip().split("\n")`, the word loop,
and the final checkpoint rewrite (only when at least one word was
created). Returns the event trace, the exit code, and the rewritten file
content if a rewrite happened. -/
def cmd_batch (co : Collab) (fileExists : Bool) (fileText lang : String)
    (inputs : List String) : List Ev × Nat × Option String :=
  if fileExists then
    if co.availO then
      let lines := pyLinesList (pyStrip fileText)
      let parsed := parse_batch_lines lines
      if parsed.1.isEmpty then ([Ev.availCheck], 1, none)
      else
        let run := batch_run co lang parsed.2 parsed.1 inputs
        if run.2.2.2 then (Ev.availCheck :: run.1, 1, none)
        else
          let newContent : Option String :=
            if run.2.1.isEmpty then none
            else
              let rem := remaining_lines lines run.2.1
              some (if rem.isEmpty then "" else joinWith "\n" rem ++ "\n")
          (Ev.availCheck :: run.1 ++
             (match newContent with | some c => [Ev.fileWrite c] | none => []),
           if run.2.2.1.isEmpty then 0 else 1, newContent)
    else ([Ev.availCheck], 1, none)
  else ([], 1, none)

/-! ## Spec-side definitions used for comparison -/

/-- Modelled from the spec: the `RETRY(hint)` accumulation rule of the
Meaning Resolver (spec section 4.2): `existing; new_hint` if the prior
context is non-empty, else `new_hint`. -/
def spec_retry_context (prior : Option String) (newHint : String) : String :=
  match prior with
  | some c => if c ≠ "" then c ++ "; " ++ newHint else newHint
  | none => newHint

/-- The headword of a batch-file line as the spec describes it: the
portion of the (trimmed) line before `|`, trimmed. -/
def headword_of_line (line : String) : String := pyStrip (beforePipeS (pyStrip line))

/-- The spec's description of which lines the checkpoint rewrite keeps:
blank lines, comment lines, and data lines whose headword is not in the
created set. -/
def keepLineSpec (created : List String) (line : String) : Bool :=
  pyStrip line == "" || startsHashS (pyStrip line) ||
    !(decide (headword_of_line line ∈ created))

/-! ## Sentence Marker Parser (modelled from the spec) -/

/-- Split of a character list around the first occurrence of `marker`:
`some (pre, post)` with the list equal to `pre ++ marker ++ post` and no
earlier occurrence, else `none`. -/
def findSplit (marker : List Char) : List Char → Option (List Char × List Char)
  | [] => if marker.isEmpty then some ([], []) else none
  | c :: rest =>
    if marker.isPrefixOf (c :: rest) then some ([], (c :: rest).drop marker.length)
    else
      match findSplit marker rest with
      | some pq => some (c :: pq.1, pq.2)
      | none => none

/-- Blank tokens for a marked span: one `___` per whitespace-separated
word, space-joined. -/
def blank_tokens_for (inner : List Char) : List Char :=
  (joinWith " " (List.replicate (splitWsL inner).length "___")).data

/-- Modelled from the spec: the Sentence Marker Parser of spec section
4.1, a component with no counterpart under `src/` (no marker-parsing code
exists in the repository). Given a marker string and a sentence, it
extracts the first marked span delimited by two occurrences of the
marker; `full` strips the markers keeping the inner text verbatim,
`blanked` replaces the span by blank tokens; if no marker pair is found
the sentence is returned unchanged in both components. -/
def parse_marked (marker : String) (sentence : String) : String × String :=
  match findSplit marker.data sentence.data with
  | none => (sentence, sentence)
  | some pr =>
    match findSplit marker.data pr.2 with
    | none => (sentence, sentence)
    | some ip =>
      (String.mk (pr.1 ++ ip.1 ++ ip.2),
       String.mk (pr.1 ++ blank_tokens_for ip.1 ++ ip.2))

/-- Substring occurrence test for the marker. -/
def occursIn (marker : List Char) : List Char → Bool
  | [] => marker.isEmpty
  | c :: rest => marker.isPrefixOf (c :: rest) || occursIn marker rest

/-! ## Concrete collaborators for closed runs -/

/-- Sample meaning whose blanked example carries a blank marker. -/
def mBench : WordMeaning :=
  ⟨"bench", "noun", "El banco es grande", "El ___ es grande", "The bench is big"⟩

/-- Collaborator bundle where every lookup returns one meaning under the
looked-up spelling and every service succeeds. -/
def co1 : Collab :=
  ⟨fun w _ => .ok ⟨w, [mBench]⟩, fun _ _ => true, fun _ _ => true, fun _ _ => some 1, true⟩

/-- Collaborator bundle with the flashcard store unreachable. -/
def co7 : Collab :=
  ⟨fun w _ => .ok ⟨w, [mBench]⟩, fun _ _ => true, fun _ _ => true, fun _ _ => some 1, false⟩

/-- Collaborator bundle that normalizes the spelling "cafe" to "café". -/
def co9 : Collab :=
  ⟨fun w _ => .ok ⟨if w = "cafe" then "café" else w, [mBench]⟩,
   fun _ _ => true, fun _ _ => true, fun _ _ => some 1, true⟩

/-- Classifier for dictionary-lookup events. -/
def isLookupEv : Ev → Bool
  | .lookupEv _ _ => true
  | _ => false

/-- Classifier for enrichment-pipeline events. -/
def isMediaEv : Ev → Bool
  | .imageGen _ _ => true
  | .audioGen _ _ => true
  | .addNote _ _ => true
  | _ => false

/-! ## Helper lemmas -/

theorem dropEndWhile_eq_rdropWhile (p : Char → Bool) (l : List Char) :
    dropEndWhile p l = l.rdropWhile p := rfl

theorem append_br_append_ne_empty (a b : String) : a ++ "<br>" ++ b ≠ "" := by
  intro hEq
  have hlen := congrArg String.length hEq
  rw [String.length_append, String.length_append] at hlen
  have h4 : ("<br>" : String).length = 4 := by decide
  have h0 : ("" : String).length = 0 := by decide
  omega

theorem blank_join_length : ∀ k : Nat,
    (joinWith " " (List.replicate k "___")).length = if k = 0 then 0 else 4 * k - 1
  | 0 => rfl
  | 1 => rfl
  | (k + 2) => by
    have ih := blank_join_length (k + 1)
    have h2 : List.replicate (k + 2) "___" = "___" :: List.replicate (k + 1) "___" :=
      List.replicate_succ "___" (k + 1)
    have h1 : List.replicate (k + 1) "___" = "___" :: List.replicate k "___" :=
      List.replicate_succ "___" k
    rw [h2, h1]
    rw [h1] at ih
    show ("___" ++ " " ++ joinWith " " ("___" :: List.replicate k "___")).length = _
    rw [String.length_append, String.length_append]
    have h3 : ("___" : String).length = 3 := by decide
    have hsp : (" " : String).length = 1 := by decide
    rw [if_neg (by omega)] at ih
    rw [if_neg (by omega), h3, hsp, ih]
    omega

/-! ## Claim theorems -/

/-- C4: fallback blanking is used only when no AI-provided blanked form
exists; it is a case-insensitive literal replacement of the headword by a
precomputed blank pattern of one `___` token per headword word (so the
pattern has length `4k - 1` for `k` words), with regex metacharacters in
the headword treated literally; in particular
`replace("El Banco es grande", "banco", "___") = "El ___ es grande"`. -/
theorem C4_fallback_blanking (word df ex tr ir ar : String) :
    ((create_card_data word df ex "" tr ir ar "en").sentence_blank
        = replace_word_with_blank ex word (create_blank_for_word word)) ∧
    (∀ exb : String, exb ≠ "" →
      (create_card_data word df ex exb tr ir ar "en").sentence_blank = exb) ∧
    replace_word_with_blank "El Banco es grande" "banco" "___" = "El ___ es grande" ∧
    replace_word_with_blank "a.c" "." "___" = "a___c" ∧
    create_blank_for_word "echar de menos" = "___ ___ ___" ∧
    (∀ w : String, (create_blank_for_word w).length =
      if (splitWsL w.data).length = 0 then 0 else 4 * (splitWsL w.data).length - 1) := by
  refine ⟨?_, ?_, by decide, by decide, by decide, ?_⟩
  · simp [create_card_data]
  · intro exb hexb
    simp [create_card_data, hexb]
  · intro w
    exact blank_join_length (splitWsL w.data).length

/-- Witness for C4 at a concrete non-empty AI-provided blanked form. -/
theorem C4_fallback_blanking_witness :
    (create_card_data "banco" "bench" "El banco es grande" "El ___ es grande"
      "The bench is big" "" "" "en").sentence_blank = "El ___ es grande" :=
  (C4_fallback_blanking "banco" "bench" "El banco es grande" "The bench is big" "" "").2.1
    "El ___ es grande" (by decide)

/-- C5: for `lang = "en"`, `create_card_data` copies the blanked/full
example verbatim into `sentence_blank`/`sentence_full` with no
translation appended; for any other language the translation is appended
after the HTML line break `<br>` in both fields. -/
theorem C5_translation_line (word df ex exb tr ir ar lang : String) :
    (lang = "en" →
      (create_card_data word df ex exb tr ir ar lang).sentence_full = ex ∧
      (create_card_data word df ex exb tr ir ar lang).sentence_blank =
        (if exb ≠ "" then exb
         else replace_word_with_blank ex word (create_blank_for_word word))) ∧
    (lang ≠ "en" →
      (create_card_data word df ex exb tr ir ar lang).sentence_full = ex ++ "<br>" ++ tr ∧
      (create_card_data word df ex exb tr ir ar lang).sentence_blank =
        (if exb ≠ "" then exb
         else replace_word_with_blank ex word (create_blank_for_word word)) ++ "<br>" ++ tr) := by
  constructor
  · intro hl
    simp [create_card_data, hl]
  · intro hl
    simp [create_card_data, hl]

/-- Witness for C5: an English card with no translation line, and a
Spanish card with a single-word translation appended after `<br>`. -/
theorem C5_translation_line_witness :
    (create_card_data "banco" "bench" "El banco es grande" "El ___ es grande" "bank" "" ""
      "en").sentence_full = "El banco es grande" ∧
    (create_card_data "banco" "bench" "El banco es grande" "El ___ es grande" "bank" "" ""
      "es").sentence_full = "El banco es grande" ++ "<br>" ++ "bank" :=
  ⟨((C5_translation_line "banco" "bench" "El banco es grande" "El ___ es grande" "bank" "" ""
      "en").1 rfl).1,
   ((C5_translation_line "banco" "bench" "El banco es grande" "El ___ es grande" "bank" "" ""
      "es").2 (by decide)).1⟩

/-- C10: for a lookup result with non-empty meanings, `get_meaning i`
returns `meanings[i-1]` for every `i` in `[1, len]`, and `get_meaning 0`
does not signal an error but returns the last meaning through Python's
negative indexing. -/
theorem C10_get_meaning_indexing (r : WordLookupResult) (h : r.meanings ≠ []) :
    (∀ i : Nat, 1 ≤ i → i ≤ r.meanings.length →
      r.get_meaning (i : Int) = r.meanings[i - 1]?) ∧
    r.get_meaning 0 = r.meanings.getLast? ∧ r.get_meaning 0 ≠ none := by
  have hlen : 0 < r.meanings.length := List.length_pos.mpr h
  have hgl : r.get_meaning 0 = r.meanings.getLast? := by
    unfold WordLookupResult.get_meaning pyIndex
    rw [if_neg (by omega), if_pos (by omega), List.getLast?_eq_getElem?]
    congr 1
    omega
  refine ⟨?_, hgl, ?_⟩
  · intro i h1 h2
    unfold WordLookupResult.get_meaning pyIndex
    rw [if_pos (by omega)]
    congr 1
    omega
  · rw [hgl]
    intro hnone
    have := List.getLast?_isSome.mpr h
    rw [hnone] at this
    simp at this

/-- Witness for C10 at a two-meaning result. -/
theorem C10_get_meaning_indexing_witness :
    ((⟨"banco", [mBench, mBench]⟩ : WordLookupResult).get_meaning (1 : Nat) =
      [mBench, mBench][0]?) ∧
    (⟨"banco", [mBench, mBench]⟩ : WordLookupResult).get_meaning 0 =
      [mBench, mBench].getLast? :=
  ⟨(C10_get_meaning_indexing ⟨"banco", [mBench, mBench]⟩ (by decide)).1 1 (by decide) (by decide),
   (C10_get_meaning_indexing ⟨"banco", [mBench, mBench]⟩ (by decide)).2.1⟩

/-- C2: once a meaning is selected the pipeline (a total function, so it
never raises) assembles a card and attempts the store call; a failed
image step leaves `image_ref` empty, a skipped or failed audio step
leaves `audio_ref` empty, and the mandatory text fields are populated
from the meaning even when both media steps fail. -/
theorem C2_pipeline_degradation (co : Collab) (word : String) (m : WordMeaning) (lang : String) :
    Ev.addNote (create_card_for_meaning co word m lang).2.1
        (if lang = "en" then ANKI_DECK_ENGLISH else ANKI_DECK_SPANISH)
      ∈ (create_card_for_meaning co word m lang).1 ∧
    (co.imageO (if lang = "en" then m.example_ else m.translation) word = false →
      (create_card_for_meaning co word m lang).2.1.image_ref = "") ∧
    ((BLANK_PATTERN_search m.example_ = true ∨ co.audioO m.example_ word = false) →
      (create_card_for_meaning co word m lang).2.1.audio_ref = "") ∧
    (create_card_for_meaning co word m lang).2.1.word = word ∧
    (create_card_for_meaning co word m lang).2.1.definition = m.definition ∧
    ((create_card_for_meaning co word m lang).2.1.sentence_full = m.example_ ∨
     (create_card_for_meaning co word m lang).2.1.sentence_full =
       m.example_ ++ "<br>" ++ m.translation) ∧
    (m.example_ ≠ "" → (create_card_for_meaning co word m lang).2.1.sentence_full ≠ "") := by
  by_cases hl : lang = "en" <;>
    by_cases hb : BLANK_PATTERN_search m.example_ = true <;>
      by_cases hi : co.imageO (if lang = "en" then m.example_ else m.translation) word = true <;>
        by_cases ha : co.audioO m.example_ word = true <;>
          simp_all [create_card_for_meaning, create_card_data, append_br_append_ne_empty]

/-- Witness for C2: both media steps fail (image raises, audio text
carries a blank marker), yet the card keeps its mandatory text fields. -/
theorem C2_pipeline_degradation_witness :
    ((create_card_for_meaning
        (⟨fun w _ => .ok ⟨w, [mBench]⟩, fun _ _ => false, fun _ _ => false,
          fun _ _ => some 1, true⟩ : Collab)
        "banco" ⟨"bench", "noun", "El ___ es grande", "", "The bench is big"⟩
        "es").2.1.image_ref = "") ∧
    ((create_card_for_meaning
        (⟨fun w _ => .ok ⟨w, [mBench]⟩, fun _ _ => false, fun _ _ => false,
          fun _ _ => some 1, true⟩ : Collab)
        "banco" ⟨"bench", "noun", "El ___ es grande", "", "The bench is big"⟩
        "es").2.1.audio_ref = "") ∧
    ((create_card_for_meaning
        (⟨fun w _ => .ok ⟨w, [mBench]⟩, fun _ _ => false, fun _ _ => false,
          fun _ _ => some 1, true⟩ : Collab)
        "banco" ⟨"bench", "noun", "El ___ es grande", "", "The bench is big"⟩
        "es").2.1.sentence_full ≠ "") :=
  ⟨(C2_pipeline_degradation _ "banco" _ "es").2.1 (by decide),
   (C2_pipeline_degradation _ "banco" _ "es").2.2.1 (Or.inl (by decide)),
   (C2_pipeline_degradation _ "banco" _ "es").2.2.2.2.2.2 (by decide)⟩

/-- C3: when the text chosen for narration (the full example) contains
two or more consecutive underscores, the narration collaborator is never
invoked and `audio_ref` stays empty; otherwise it is invoked on the full
unblanked example, and on error the pipeline continues with an empty
`audio_ref` while still attempting the store call. -/
theorem C3_audio_skip_rule (co : Collab) (word : String) (m : WordMeaning) (lang : String) :
    (BLANK_PATTERN_search m.example_ = true →
      (∀ t w, Ev.audioGen t w ∉ (create_card_for_meaning co word m lang).1) ∧
      (create_card_for_meaning co word m lang).2.1.audio_ref = "") ∧
    (BLANK_PATTERN_search m.example_ = false →
      Ev.audioGen m.example_ word ∈ (create_card_for_meaning co word m lang).1 ∧
      (co.audioO m.example_ word = false →
        (create_card_for_meaning co word m lang).2.1.audio_ref = "" ∧
        Ev.addNote (create_card_for_meaning co word m lang).2.1
            (if lang = "en" then ANKI_DECK_ENGLISH else ANKI_DECK_SPANISH)
          ∈ (create_card_for_meaning co word m lang).1)) := by
  by_cases hl : lang = "en" <;>
    by_cases hb : BLANK_PATTERN_search m.example_ = true <;>
      by_cases ha : co.audioO m.example_ word = true <;>
        simp_all [create_card_for_meaning, create_card_data]

/-- Witness for C3: the blanked text `El ___ es grande` suppresses the
narration call, and a failing narration on clean text degrades to an
empty reference. -/
theorem C3_audio_skip_rule_witness :
    ((create_card_for_meaning co1 "banco"
        ⟨"bench", "noun", "El ___ es grande", "", "The bench is big"⟩ "es").2.1.audio_ref = "") ∧
    Ev.audioGen "El banco es grande" "banco"
      ∈ (create_card_for_meaning co1 "banco"
          ⟨"bench", "noun", "El banco es grande", "", "The bench is big"⟩ "es").1 :=
  ⟨((C3_audio_skip_rule co1 "banco"
      ⟨"bench", "noun", "El ___ es grande", "", "The bench is big"⟩ "es").1 (by decide)).2,
   ((C3_audio_skip_rule co1 "banco"
      ⟨"bench", "noun", "El banco es grande", "", "The bench is big"⟩ "es").2 (by decide)).1⟩

theorem add_retry_context_spec (cur : Option String) (h : String) (hh : h ≠ "") :
    add_retry_context cur h = some (spec_retry_context cur h) := by
  cases cur with
  | none => simp [add_retry_context, spec_retry_context, pyTruthy, hh]
  | some c =>
    by_cases hc : c = ""
    · simp [add_retry_context, spec_retry_context, pyTruthy, hh, hc]
    · simp [add_retry_context, spec_retry_context, pyTruthy, hh, hc]

theorem batch_retry_context_spec (cur : Option String) (h : String) (hh : h ≠ "") :
    batch_retry_context cur h = some (spec_retry_context cur h) := by
  cases cur with
  | none => simp [batch_retry_context, spec_retry_context, pyTruthy, hh]
  | some c =>
    by_cases hc : c = ""
    · simp [batch_retry_context, spec_retry_context, pyTruthy, hh, hc]
    · simp [batch_retry_context, spec_retry_context, pyTruthy, hh, hc]

theorem pyLowerS_ne_of_empty (raw : String) (hr : pyLowerS (pyStrip raw) = "r") :
    pyStrip raw ≠ "" := by
  intro h0
  rw [h0] at hr
  exact absurd hr (by decide)

theorem add_interact_retry_head (co : Collab) (lang word : String) (ctx : Option String)
    (r : WordLookupResult) (raw hintRaw : String) (rest : List String)
    (hr : pyLowerS (pyStrip raw) = "r") :
    (add_interact co lang word ctx r (raw :: hintRaw :: rest)).1.head? =
      some (Ev.lookupEv word (add_retry_context ctx (pyStrip hintRaw))) := by
  have hne := pyLowerS_ne_of_empty raw hr
  by_cases h1 : r.meanings.length = 1 <;>
    · simp only [add_interact, h1, if_pos, if_neg hne, hr, if_true, ite_true, ite_false,
        if_false, reduceIte]
      cases co.lookupO word (add_retry_context ctx (pyStrip hintRaw)) with
      | err msg => simp
      | ok r2 =>
        by_cases hm : r2.meanings.isEmpty <;> simp [hm]

theorem batch_interact_retry_head (co : Collab) (lang word : String) (ctx : Option String)
    (r : WordLookupResult) (raw hintRaw : String) (rest : List String)
    (hr : pyLowerS (pyStrip raw) = "r") :
    (batch_interact co lang word ctx r (raw :: hintRaw :: rest)).1.head? =
      some (Ev.lookupEv word (batch_retry_context ctx (pyStrip hintRaw))) := by
  have hne := pyLowerS_ne_of_empty raw hr
  have hs : pyLowerS (pyStrip raw) ≠ "s" := by rw [hr]; decide
  simp only [batch_interact, hne, false_and, if_false, hs, hr, if_true, ite_true, ite_false,
    reduceIte]
  cases co.lookupO word (batch_retry_context ctx (pyStrip hintRaw)) with
  | err msg => simp
  | ok r2 =>
    by_cases hm : r2.meanings.isEmpty <;> simp [hm]

/-- C6: whenever either flow retries a lookup with a new non-empty hint,
the context passed to the next lookup is `existing; new_hint` when the
prior context is non-empty and exactly `new_hint` when it is empty or
absent; stated through the accumulators of both flows agreeing with the
spec rule and through the next lookup event each flow emits. -/
theorem C6_hint_accumulation (co : Collab) (lang word : String) (ctx : Option String)
    (r : WordLookupResult) (raw hintRaw : String) (rest : List String)
    (hr : pyLowerS (pyStrip raw) = "r") (hh : pyStrip hintRaw ≠ "") :
    add_retry_context ctx (pyStrip hintRaw) = some (spec_retry_context ctx (pyStrip hintRaw)) ∧
    batch_retry_context ctx (pyStrip hintRaw) = some (spec_retry_context ctx (pyStrip hintRaw)) ∧
    (add_interact co lang word ctx r (raw :: hintRaw :: rest)).1.head? =
      some (Ev.lookupEv word (some (spec_retry_context ctx (pyStrip hintRaw)))) ∧
    (batch_interact co lang word ctx r (raw :: hintRaw :: rest)).1.head? =
      some (Ev.lookupEv word (some (spec_retry_context ctx (pyStrip hintRaw)))) := by
  have ha := add_retry_context_spec ctx (pyStrip hintRaw) hh
  have hb := batch_retry_context_spec ctx (pyStrip hintRaw) hh
  refine ⟨ha, hb, ?_, ?_⟩
  · rw [add_interact_retry_head co lang word ctx r raw hintRaw rest hr, ha]
  · rw [batch_interact_retry_head co lang word ctx r raw hintRaw rest hr, hb]

/-- Witness for C6: a retry with hint "vulgar" on top of the prior
context "sitting" in both flows. -/
theorem C6_hint_accumulation_witness :
    add_retry_context (some "sitting") (pyStrip "vulgar") =
      some (spec_retry_context (some "sitting") (pyStrip "vulgar")) ∧
    (add_interact co1 "es" "banco" (some "sitting") ⟨"banco", [mBench]⟩
        ("r" :: "vulgar" :: [])).1.head? =
      some (Ev.lookupEv "banco" (some (spec_retry_context (some "sitting") (pyStrip "vulgar")))) :=
  ⟨(C6_hint_accumulation co1 "es" "banco" (some "sitting") ⟨"banco", [mBench]⟩ "r" "vulgar" []
      (by decide) (by decide)).1,
   (C6_hint_accumulation co1 "es" "banco" (some "sitting") ⟨"banco", [mBench]⟩ "r" "vulgar" []
      (by decide) (by decide)).2.2.1⟩

theorem create_card_evs_media (co : Collab) (word : String) (m : WordMeaning) (lang : String) :
    ∀ e ∈ (create_card_for_meaning co word m lang).1, isMediaEv e = true := by
  intro e he
  by_cases hb : BLANK_PATTERN_search m.example_ = true
  · simp [create_card_for_meaning, hb] at he
    rcases he with rfl | rfl <;> rfl
  · by_cases ha : co.audioO m.example_ word = true
    · simp [create_card_for_meaning, hb, ha] at he
      rcases he with rfl | rfl | rfl <;> rfl
    · simp [create_card_for_meaning, hb, ha] at he
      rcases he with rfl | rfl | rfl <;> rfl

theorem add_interact_evs_lookup (co : Collab) (lang word : String) :
    ∀ (inputs : List String) (ctx : Option String) (r : WordLookupResult),
      ∀ e ∈ (add_interact co lang word ctx r inputs).1, isLookupEv e = true := by
  suffices H : ∀ (n : Nat) (inputs : List String), inputs.length ≤ n →
      ∀ (ctx : Option String) (r : WordLookupResult),
        ∀ e ∈ (add_interact co lang word ctx r inputs).1, isLookupEv e = true by
    intro inputs ctx r e he
    exact H inputs.length inputs le_rfl ctx r e he
  intro n
  induction n with
  | zero =>
    intro inputs hlen ctx r e he
    have h0 : inputs = [] := List.length_eq_zero.mp (Nat.le_zero.mp hlen)
    subst h0
    simp [add_interact] at he
  | succ n ih =>
    intro inputs hlen ctx r e he
    match inputs with
    | [] => simp [add_interact] at he
    | [raw] =>
      simp only [add_interact] at he
      repeat' split at he
      all_goals simp [add_interact] at he
    | raw :: hintRaw :: rest2 =>
      simp only [add_interact] at he
      simp only [List.length_cons] at hlen
      repeat' split at he
      all_goals first
        | exact absurd he (List.not_mem_nil e)
        | (simp only [List.mem_singleton] at he
           subst he
           rfl)
        | (simp only [List.mem_cons] at he
           rcases he with rfl | he
           · rfl
           · first
             | exact ih _ (by omega) _ _ e he
             | exact ih _ (by simp only [List.length_cons]; omega) _ _ e he)
        | exact ih _ (by omega) _ _ e he
        | exact ih _ (by simp only [List.length_cons]; omega) _ _ e he

theorem batch_interact_evs_lookup (co : Collab) (lang word : String) :
    ∀ (inputs : List String) (ctx : Option String) (r : WordLookupResult),
      ∀ e ∈ (batch_interact co lang word ctx r inputs).1, isLookupEv e = true := by
  suffices H : ∀ (n : Nat) (inputs : List String), inputs.length ≤ n →
      ∀ (ctx : Option String) (r : WordLookupResult),
        ∀ e ∈ (batch_interact co lang word ctx r inputs).1, isLookupEv e = true by
    intro inputs ctx r e he
    exact H inputs.length inputs le_rfl ctx r e he
  intro n
  induction n with
  | zero =>
    intro inputs hlen ctx r e he
    have h0 : inputs = [] := List.length_eq_zero.mp (Nat.le_zero.mp hlen)
    subst h0
    simp [batch_interact] at he
  | succ n ih =>
    intro inputs hlen ctx r e he
    match inputs with
    | [] => simp [batch_interact] at he
    | [raw] =>
      simp only [batch_interact] at he
      repeat' split at he
      all_goals simp [batch_interact] at he
    | raw :: hintRaw :: rest2 =>
      simp only [batch_interact] at he
      simp only [List.length_cons] at hlen
      repeat' split at he
      all_goals first
        | exact absurd he (List.not_mem_nil e)
        | (simp only [List.mem_singleton] at he
           subst he
           rfl)
        | (simp only [List.mem_cons] at he
           rcases he with rfl | he
           · rfl
           · first
             | exact ih _ (by omega) _ _ e he
             | exact ih _ (by simp only [List.length_cons]; omega) _ _ e he)
        | exact ih _ (by omega) _ _ e he
        | exact ih _ (by simp only [List.length_cons]; omega) _ _ e he

theorem batch_word_evs (co : Collab) (lang word : String) (hint : Option String)
    (inputs : List String) :
    ∀ e ∈ (batch_word co lang word hint inputs).1, isLookupEv e || isMediaEv e := by
  intro e he
  simp only [batch_word] at he
  repeat' split at he
  all_goals try simp at he
  all_goals first
    | (subst he; rfl)
    | (rcases he with rfl | he
       · rfl
       · rw [batch_interact_evs_lookup co lang word _ _ _ e he]
         rfl)
    | (rcases he with rfl | he | he
       · rfl
       · rw [batch_interact_evs_lookup co lang word _ _ _ e he]
         rfl
       · rw [create_card_evs_media co _ _ lang e he]
         simp)

theorem batch_run_evs (co : Collab) (lang : String) (hints : List (String × String)) :
    ∀ (ws inputs : List String),
      ∀ e ∈ (batch_run co lang hints ws inputs).1, isLookupEv e || isMediaEv e := by
  intro ws
  induction ws with
  | nil => intro inputs e he; simp [batch_run] at he
  | cons w ws ih =>
    intro inputs e he
    simp only [batch_run] at he
    split at he
    · exact batch_word_evs co lang w _ inputs e he
    · simp only [List.mem_append] at he
      rcases he with he | he
      · exact batch_word_evs co lang w _ inputs e he
      · exact ih _ e he
    · simp only [List.mem_append] at he
      rcases he with he | he
      · exact batch_word_evs co lang w _ inputs e he
      · exact ih _ e he

theorem no_fileWrite_in_batch_run (co : Collab) (lang : String)
    (hints : List (String × String)) (ws inputs : List String) (c : String) :
    Ev.fileWrite c ∉ (batch_run co lang hints ws inputs).1 := by
  intro hmem
  have h := batch_run_evs co lang hints ws inputs _ hmem
  simp [isLookupEv, isMediaEv] at h

theorem no_availCheck_in_batch_run (co : Collab) (lang : String)
    (hints : List (String × String)) (ws inputs : List String) :
    Ev.availCheck ∉ (batch_run co lang hints ws inputs).1 := by
  intro hmem
  have h := batch_run_evs co lang hints ws inputs _ hmem
  simp [isLookupEv, isMediaEv] at h

/-- C7 counterexample: a single-word `add` run in which the trace is
exactly a dictionary lookup followed by the availability check, so the
flashcard-store connectivity precondition is not checked before the
dictionary lookup and meaning selection; the claim's ordering fails on
the add flow. -/
theorem C7_add_checks_after_lookup :
    (cmd_add co7 "banco" none "es" [""]).1 = [Ev.lookupEv "banco" none, Ev.availCheck] ∧
    (cmd_add co7 "banco" none "es" [""]).2 = 1 := by decide

/-- C7 amended: in the batch flow the availability check is the first
action, happens at most once, and on failure the whole run aborts with
exit code 1 before any lookup; in the add flow the check still happens at
most once and on failure the run aborts with exit code 1 with no store
submission ever attempted, but it takes place only after lookup and
meaning selection. -/
theorem C7_store_precondition_amended :
    (∀ (co : Collab) (text lang : String) (inputs : List String), co.availO = false →
      cmd_batch co true text lang inputs = ([Ev.availCheck], 1, none)) ∧
    (∀ (co : Collab) (text lang : String) (inputs : List String),
      (cmd_batch co true text lang inputs).1.head? = some Ev.availCheck) ∧
    (∀ (co : Collab) (text lang : String) (inputs : List String),
      (cmd_batch co true text lang inputs).1.count Ev.availCheck ≤ 1) ∧
    (∀ (co : Collab) (w : String) (ctx : Option String) (lang : String) (inputs : List String),
      co.availO = false →
        (cmd_add co w ctx lang inputs).2 = 1 ∧
        ∀ (card : AnkiCard) (dk : String), Ev.addNote card dk ∉ (cmd_add co w ctx lang inputs).1) ∧
    (∀ (co : Collab) (w : String) (ctx : Option String) (lang : String) (inputs : List String),
      (cmd_add co w ctx lang inputs).1.count Ev.availCheck ≤ 1) := by
  refine ⟨?_, ?_, ?_, ?_, ?_⟩
  · intro co text lang inputs h
    simp [cmd_batch, h]
  · intro co text lang inputs
    by_cases hav : co.availO = true
    · simp only [cmd_batch, hav, if_true, ite_true, reduceIte]
      split
      · rfl
      · split
        · rfl
        · rfl
    · simp [cmd_batch, hav]
  · intro co text lang inputs
    by_cases hav : co.availO = true
    · have hrun := no_availCheck_in_batch_run co lang
        (parse_batch_lines (pyLinesList (pyStrip text))).2
        (parse_batch_lines (pyLinesList (pyStrip text))).1 inputs
      have hcz := List.count_eq_zero.mpr hrun
      have hw : ∀ c : String, List.count Ev.availCheck [Ev.fileWrite c] = 0 := by
        intro c
        rw [List.count_eq_zero]
        simp
      simp only [cmd_batch, hav, if_true, ite_true, reduceIte]
      split
      · simp
      · split
        · dsimp only
          simp [List.count_cons, hcz]
        · split
          · dsimp only
            simp [List.count_cons, List.count_append, hcz, hw]
          · dsimp only
            simp [List.count_cons, List.count_append, hcz, hw]
    · simp [cmd_batch, hav]
  · intro co w ctx lang inputs h
    have hNoAdd : ∀ (word : String) (ctx2 : Option String) (r : WordLookupResult)
        (inputs2 : List String) (card : AnkiCard) (dk : String),
        Ev.addNote card dk ∉ (add_interact co lang word ctx2 r inputs2).1 := by
      intro word ctx2 r inputs2 card dk hmem
      have hcl := add_interact_evs_lookup co lang _ _ _ _ _ hmem
      simp [isLookupEv] at hcl
    simp only [cmd_add]
    split
    · exact ⟨rfl, by intro card dk hmem; simp at hmem⟩
    · split
      · exact ⟨rfl, by intro card dk hmem; simp at hmem⟩
      · split
        · refine ⟨rfl, ?_⟩
          intro card dk hmem
          dsimp only at hmem
          rcases List.mem_cons.mp hmem with h1 | h2
          · simp at h1
          · exact hNoAdd _ _ _ _ _ _ h2
        · rw [if_neg (by simp [h])]
          refine ⟨rfl, ?_⟩
          intro card dk hmem
          dsimp only at hmem
          rcases List.mem_cons.mp hmem with h1 | h2
          · simp at h1
          · rcases List.mem_append.mp h2 with h3 | h4
            · exact hNoAdd _ _ _ _ _ _ h3
            · simp at h4
  · intro co w ctx lang inputs
    have hAvail : ∀ (word : String) (ctx2 : Option String) (r : WordLookupResult)
        (inputs2 : List String),
        List.count Ev.availCheck (add_interact co lang word ctx2 r inputs2).1 = 0 := by
      intro word ctx2 r inputs2
      rw [List.count_eq_zero]
      intro hmem
      have hcl := add_interact_evs_lookup co lang _ _ _ _ _ hmem
      simp [isLookupEv] at hcl
    have hMedia : ∀ (word : String) (m : WordMeaning),
        List.count Ev.availCheck (create_card_for_meaning co word m lang).1 = 0 := by
      intro word m
      rw [List.count_eq_zero]
      intro hmem
      have hcm := create_card_evs_media co _ _ lang _ hmem
      simp [isMediaEv] at hcm
    simp only [cmd_add]
    split
    · simp
    · split
      · simp
      · split
        · dsimp only
          rw [List.count_cons, hAvail]
          simp
        · by_cases hav : co.availO = true
          · rw [if_pos hav]
            dsimp only
            simp [List.count_append, List.count_cons, hAvail, hMedia]
          · rw [if_neg hav]
            dsimp only
            simp [List.count_append, List.count_cons, hAvail]

/-- Witness for C7 amended: an unreachable store aborts a batch run with
exit code 1 before any lookup, and aborts an add run with exit code 1
with no store submission. -/
theorem C7_store_precondition_amended_witness :
    cmd_batch co7 true "banco" "es" [""] = ([Ev.availCheck], 1, none) ∧
    (cmd_add co7 "banco" none "es" [""]).2 = 1 :=
  ⟨C7_store_precondition_amended.1 co7 "banco" "es" [""] rfl,
   (C7_store_precondition_amended.2.2.2.1 co7 "banco" none "es" [""] rfl).1⟩

theorem stripL_idem (l : List Char) : stripL (stripL l) = stripL l := by
  unfold stripL
  simp only [dropEndWhile_eq_rdropWhile]
  set y := l.dropWhile isPySpace with hy
  have h2 : (y.rdropWhile isPySpace).dropWhile isPySpace = y.rdropWhile isPySpace := by
    cases hpre : y.rdropWhile isPySpace with
    | nil => rfl
    | cons c rest =>
      have h1 : y.dropWhile isPySpace = y := by
        rw [hy]
        exact List.dropWhile_idempotent _ _
      have hpfx := List.rdropWhile_prefix isPySpace y
      rw [hpre] at hpfx
      obtain ⟨t, ht⟩ := hpfx
      by_cases hc : isPySpace c = true
      · exfalso
        have hy2 : y = c :: (rest ++ t) := by
          rw [← ht]
          simp
        rw [hy2, List.dropWhile_cons, if_pos hc] at h1
        have hlen := congrArg List.length h1
        simp only [List.length_cons] at hlen
        have hle : ((rest ++ t).dropWhile isPySpace).length ≤ (rest ++ t).length :=
          (List.dropWhile_suffix isPySpace).sublist.length_le
        omega
      · rw [List.dropWhile_cons, if_neg hc]
  rw [h2, List.rdropWhile_idempotent]

theorem pyStrip_idem (s : String) : pyStrip (pyStrip s) = pyStrip s := by
  unfold pyStrip
  rw [show (String.mk (stripL s.data)).data = stripL s.data from rfl, stripL_idem]

theorem beforePipe_of_no_pipe (l : List Char) (h : hasChar '|' l = false) :
    beforePipe l = l := by
  induction l with
  | nil => rfl
  | cons c rest ih =>
    simp only [hasChar, Bool.or_eq_false_iff] at h
    simp [beforePipe, h.1, ih h.2]

theorem headword_src_eq (line : String) :
    (if containsPipeS (pyStrip line) = true then pyStrip (beforePipeS (pyStrip line))
     else pyStrip line) = headword_of_line line := by
  unfold headword_of_line
  by_cases h : containsPipeS (pyStrip line) = true
  · rw [if_pos h]
  · rw [if_neg h]
    have hf : containsPipeS (pyStrip line) = false := by simpa using h
    have hb : beforePipeS (pyStrip line) = pyStrip line := by
      unfold beforePipeS
      rw [beforePipe_of_no_pipe _ hf]
    rw [hb, pyStrip_idem]

theorem remaining_lines_eq_filter (lines created : List String) :
    remaining_lines lines created = lines.filter (keepLineSpec created) := by
  induction lines with
  | nil => rfl
  | cons line rest ih =>
    rw [List.filter_cons]
    simp only [remaining_lines]
    by_cases hbc : (pyStrip line = "" ∨ startsHashS (pyStrip line) = true)
    · rw [if_pos hbc]
      have hk : keepLineSpec created line = true := by
        unfold keepLineSpec
        rcases hbc with hb | hc
        · simp [hb]
        · simp [hc]
      rw [hk, if_pos rfl, ih]
    · rw [if_neg hbc]
      push_neg at hbc
      rw [headword_src_eq line]
      by_cases hmem : headword_of_line line ∈ created
      · rw [if_pos hmem, ih]
        have hk : keepLineSpec created line = false := by
          unfold keepLineSpec
          simp [hmem, hbc.1, hbc.2]
        rw [hk]
        simp
      · rw [if_neg hmem, ih]
        have hk : keepLineSpec created line = true := by
          unfold keepLineSpec
          simp [hmem]
        rw [hk]
        simp

/-- C1 counterexample: a batch run on a file beginning with two blank
lines. Both words succeed; the rewritten file keeps the comment but the
two blank lines of the original are not retained (only the final-newline
artifact remains), because `cmd_batch` reads the file through
`read_text().strip()`. This refutes blank-line preservation for every
input file. -/
theorem C1_blank_line_lost :
    (cmd_batch co1 true "\n\nbanco\n# note" "es" [""]).2.2 = some "# note\n" ∧
    (pyLinesList "\n\nbanco\n# note").countP (fun l => l == "") = 2 ∧
    (pyLinesList "# note\n").countP (fun l => l == "") = 1 := by decide

/-- C1 amended: after every word is processed the file write, when it
happens, is the final action of the run; the retained lines are exactly
the lines of the whitespace-trimmed file text that are blank, comments,
or data lines whose headword (portion before the pipe, trimmed) is not
in the created set, verbatim and in order (so comment lines and interior
blank lines keep their relative position); blank lines at the very start
or end of the file are lost to the initial trim, and the file is only
rewritten when at least one word was created. -/
theorem C1_checkpoint_rewrite_amended :
    (∀ lines created : List String,
      remaining_lines lines created = lines.filter (keepLineSpec created)) ∧
    (∀ (co : Collab) (text lang : String) (inputs : List String) (c : String),
      Ev.fileWrite c ∈ (cmd_batch co true text lang inputs).1 →
        (cmd_batch co true text lang inputs).1.getLast? = some (Ev.fileWrite c)) ∧
    (∀ (co : Collab) (text lang : String) (inputs : List String) (c : String),
      (cmd_batch co true text lang inputs).2.2 = some c →
        ∃ created : List String, created ≠ [] ∧
          c = (if (remaining_lines (pyLinesList (pyStrip text)) created).isEmpty then ""
               else joinWith "\n" (remaining_lines (pyLinesList (pyStrip text)) created) ++ "\n")) := by
  refine ⟨remaining_lines_eq_filter, ?_, ?_⟩
  · intro co text lang inputs c hmem
    by_cases hav : co.availO = true
    · simp only [cmd_batch, hav, if_true, ite_true, reduceIte] at hmem ⊢
      set P := parse_batch_lines (pyLinesList (pyStrip text)) with hP
      set R := batch_run co lang P.2 P.1 inputs with hR
      have hnofw := no_fileWrite_in_batch_run co lang P.2 P.1 inputs c
      by_cases hempty : P.1.isEmpty = true
      · rw [if_pos hempty] at hmem
        simp at hmem
      · rw [if_neg hempty] at hmem ⊢
        by_cases hint2 : R.2.2.2 = true
        · rw [if_pos hint2] at hmem
          simp only [List.mem_cons] at hmem
          rcases hmem with hmem | hmem
          · exact absurd hmem (by simp)
          · exact absurd hmem hnofw
        · rw [if_neg hint2] at hmem ⊢
          by_cases hcr : R.2.1.isEmpty = true
          · rw [if_pos hcr] at hmem
            simp only [List.mem_cons, List.mem_append] at hmem
            rcases hmem with (hmem | hmem) | hmem
            · exact absurd hmem (by simp)
            · exact absurd hmem hnofw
            · simp at hmem
          · rw [if_neg hcr] at hmem ⊢
            dsimp only at hmem ⊢
            simp only [List.mem_append, List.mem_cons, List.mem_singleton] at hmem
            rcases hmem with (hmem | hmem) | (hmem | hmem)
            · exact absurd hmem (by simp)
            · exact absurd hmem hnofw
            · rw [List.getLast?_concat]
              injection hmem with hmem2
              rw [hmem2]
            · simp at hmem
    · simp only [cmd_batch, hav] at hmem
      simp at hmem
  · intro co text lang inputs c hout
    by_cases hav : co.availO = true
    · simp only [cmd_batch, hav, if_true, ite_true, reduceIte] at hout
      set P := parse_batch_lines (pyLinesList (pyStrip text)) with hP
      set R := batch_run co lang P.2 P.1 inputs with hR
      by_cases hempty : P.1.isEmpty = true
      · rw [if_pos hempty] at hout
        simp at hout
      · rw [if_neg hempty] at hout
        by_cases hint2 : R.2.2.2 = true
        · rw [if_pos hint2] at hout
          simp at hout
        · rw [if_neg hint2] at hout
          by_cases hcr : R.2.1.isEmpty = true
          · rw [if_pos hcr] at hout
            simp at hout
          · rw [if_neg hcr] at hout
            dsimp only at hout
            refine ⟨R.2.1, ?_, ?_⟩
            · intro hnil
              rw [hnil] at hcr
              simp at hcr
            · injection hout with hout
              exact hout.symm
    · simp only [cmd_batch, hav] at hout
      simp at hout

/-- Witness for C1 amended: the rewrite formula holds for the
counterexample run, and a comment line keeps its count through the
filter. -/
theorem C1_checkpoint_rewrite_amended_witness :
    (remaining_lines ["", "banco", "# note"] ["banco"] =
      (["", "banco", "# note"] : List String).filter (keepLineSpec ["banco"])) ∧
    (∃ created : List String, created ≠ [] ∧
      "# note\n" = (if (remaining_lines (pyLinesList (pyStrip "\n\nbanco\n# note"))
          created).isEmpty then ""
        else joinWith "\n"
          (remaining_lines (pyLinesList (pyStrip "\n\nbanco\n# note")) created) ++ "\n")) :=
  ⟨C1_checkpoint_rewrite_amended.1 ["", "banco", "# note"] ["banco"],
   C1_checkpoint_rewrite_amended.2.2 co1 "\n\nbanco\n# note" "es" [""] "# note\n" (by decide)⟩

theorem findSplit_of_not_occurs (marker : List Char) :
    ∀ l : List Char, occursIn marker l = false → findSplit marker l = none := by
  intro l
  induction l with
  | nil =>
    intro h
    simp only [occursIn] at h
    simp [findSplit, h]
  | cons c rest ih =>
    intro h
    simp only [occursIn, Bool.or_eq_false_iff] at h
    simp [findSplit, h.1, ih h.2]

theorem findSplit_append (marker : List Char) :
    ∀ (pre rest : List Char),
      (∀ k, k < pre.length → marker.isPrefixOf ((pre ++ marker ++ rest).drop k) = false) →
      findSplit marker (pre ++ marker ++ rest) = some (pre, rest) := by
  intro pre
  induction pre with
  | nil =>
    intro rest h
    simp only [List.nil_append]
    have hpf : marker.isPrefixOf (marker ++ rest) = true :=
      List.isPrefixOf_iff_prefix.mpr (List.prefix_append marker rest)
    cases hmr : marker ++ rest with
    | nil =>
      have hm : marker = [] := (List.append_eq_nil.mp hmr).1
      have hr : rest = [] := (List.append_eq_nil.mp hmr).2
      subst hm
      subst hr
      simp [findSplit]
    | cons c cs =>
      rw [hmr] at hpf
      rw [findSplit.eq_2, if_pos hpf, ← hmr, List.drop_left]
  | cons c pr ih =>
    intro rest h
    have h0 := h 0 (by simp)
    rw [List.drop_zero] at h0
    have hstep : findSplit marker (pr ++ marker ++ rest) = some (pr, rest) := by
      apply ih
      intro k hk
      have hk1 := h (k + 1) (by simp only [List.length_cons]; omega)
      simpa using hk1
    have hcons : (c :: pr) ++ marker ++ rest = c :: (pr ++ marker ++ rest) := by simp
    rw [hcons] at h0
    rw [hcons]
    rw [findSplit.eq_2, if_neg (by rw [h0]; simp), hstep]

/-- C8: properties of the Sentence Marker Parser modelled from spec
section 4.1 (no marker-parsing code exists under src). A sentence with no
marker pair is returned unchanged as `(s, s)`; a sentence with one marked
span has the markers stripped and the inner text preserved verbatim in
`full`, while `blanked` replaces the span by one `___` token per
whitespace-separated word of the span, space-joined, with no character
outside the pair altered. -/
theorem C8_marker_parse_contract (marker : String) (pre inner post : List Char)
    (hA : ∀ k, k < pre.length →
      marker.data.isPrefixOf
        ((pre ++ marker.data ++ (inner ++ marker.data ++ post)).drop k) = false)
    (hB : ∀ k, k < inner.length →
      marker.data.isPrefixOf ((inner ++ marker.data ++ post).drop k) = false) :
    (∀ s : String, occursIn marker.data s.data = false → parse_marked marker s = (s, s)) ∧
    parse_marked marker (String.mk (pre ++ marker.data ++ (inner ++ marker.data ++ post))) =
      (String.mk (pre ++ inner ++ post), String.mk (pre ++ blank_tokens_for inner ++ post)) ∧
    parse_marked "**" "El **banco grande** es" = ("El banco grande es", "El ___ ___ es") := by
  refine ⟨?_, ?_, by decide⟩
  · intro s h
    unfold parse_marked
    rw [findSplit_of_not_occurs marker.data s.data h]
  · unfold parse_marked
    have h1 := findSplit_append marker.data pre (inner ++ marker.data ++ post) hA
    have h2 := findSplit_append marker.data inner post hB
    rw [show (String.mk (pre ++ marker.data ++ (inner ++ marker.data ++ post))).data
          = pre ++ marker.data ++ (inner ++ marker.data ++ post) from rfl]
    rw [h1]
    dsimp only
    rw [h2]

/-- Witness for C8 at the marker `**` around the span `banco grande`. -/
theorem C8_marker_parse_contract_witness :
    parse_marked "**"
        (String.mk ("El ".data ++ "**".data ++
          ("banco grande".data ++ "**".data ++ " es".data))) =
      (String.mk ("El ".data ++ "banco grande".data ++ " es".data),
       String.mk ("El ".data ++ blank_tokens_for "banco grande".data ++ " es".data)) :=
  (C8_marker_parse_contract "**" "El ".data "banco grande".data " es".data
    (by decide) (by decide)).2.1

theorem splitNl_of_no_newline (l : List Char) (h : hasChar '\n' l = false) :
    splitNl l = [l] := by
  induction l with
  | nil => rfl
  | cons c rest ih =>
    simp only [hasChar, Bool.or_eq_false_iff] at h
    simp [splitNl, h.1, ih h.2]

theorem pyLinesList_single (s : String) (h : hasChar '\n' s.data = false) :
    pyLinesList s = [s] := by
  unfold pyLinesList
  rw [splitNl_of_no_newline s.data h]
  rfl

/-- C9: the batch outcome is recorded under the original spelling read
from the file, while the card itself is stored under the normalized
spelling: for a one-word file whose lookup normalizes the spelling to a
different string, a successful run still removes the original line (the
file is emptied and rewritten), the run exits 0, and the note submitted
to the store carries the normalized word. -/
theorem C9_checkpoint_original_spelling (co : Collab) (word n lang : String) (m : WordMeaning)
    (hstrip : pyStrip word = word) (hne : word ≠ "") (hhash : startsHashS word = false)
    (hpipe : containsPipeS word = false) (hnl : hasChar '\n' word.data = false)
    (hlook : co.lookupO word none = .ok ⟨n, [m]⟩) (hchanged : n ≠ word)
    (hav : co.availO = true) (hstore : ∀ c d, (co.storeO c d).isSome = true) :
    (cmd_batch co true word lang [""]).2.2 = some "" ∧
    (cmd_batch co true word lang [""]).2.1 = 0 ∧
    ∃ (card : AnkiCard) (deck : String),
      Ev.addNote card deck ∈ (cmd_batch co true word lang [""]).1 ∧ card.word = n := by
  have hps : pyStrip "" = "" := by decide
  have hlines : pyLinesList (pyStrip word) = [word] := by
    rw [hstrip]
    exact pyLinesList_single word hnl
  have hparse : parse_batch_lines [word] = ([word], []) := by
    simp [parse_batch_lines, hstrip, hne, hhash, hpipe]
  have hinter : batch_interact co lang word none ⟨n, [m]⟩ [""] =
      ([], .sel ⟨n, [m]⟩ m, []) := by
    simp [batch_interact, hps]
  have hok : (create_card_for_meaning co n m lang).2.2 = true := by
    simp only [create_card_for_meaning]
    exact hstore _ _
  have hbw : batch_word co lang word none [""] =
      (Ev.lookupEv word none :: (create_card_for_meaning co n m lang).1, .createdB, []) := by
    simp only [batch_word, hlook]
    simp only [List.isEmpty_cons, Bool.false_eq_true, if_false, ite_false, reduceIte]
    rw [hinter]
    dsimp only
    rw [hok]
    simp
  have hrun : batch_run co lang [] [word] [""] =
      (Ev.lookupEv word none :: (create_card_for_meaning co n m lang).1, [word], [], false) := by
    simp only [batch_run]
    rw [show dictGet [] word = none from rfl, hbw]
    dsimp only
    simp [batch_run]
  have hrem : remaining_lines [word] [word] = [] := by
    simp only [remaining_lines]
    rw [hstrip]
    rw [if_neg (by simp [hne, hhash])]
    simp [hpipe]
  have hfinal : cmd_batch co true word lang [""] =
      (Ev.availCheck :: (Ev.lookupEv word none :: (create_card_for_meaning co n m lang).1)
          ++ [Ev.fileWrite ""], 0, some "") := by
    simp only [cmd_batch, hav, if_true, ite_true, reduceIte]
    rw [hlines, hparse]
    dsimp only
    simp only [List.isEmpty_cons, Bool.false_eq_true, if_false, ite_false, reduceIte]
    rw [hrun]
    dsimp only
    simp only [List.isEmpty_cons, Bool.false_eq_true, if_false, ite_false, reduceIte]
    rw [hrem]
    simp
  refine ⟨by rw [hfinal], by rw [hfinal], ?_⟩
  refine ⟨(create_card_for_meaning co n m lang).2.1,
    (if lang = "en" then ANKI_DECK_ENGLISH else ANKI_DECK_SPANISH), ?_, ?_⟩
  · rw [hfinal]
    have hmemadd : Ev.addNote (create_card_for_meaning co n m lang).2.1
        (if lang = "en" then ANKI_DECK_ENGLISH else ANKI_DECK_SPANISH)
        ∈ (create_card_for_meaning co n m lang).1 := by
      by_cases hb : BLANK_PATTERN_search m.example_ = true <;>
        by_cases ha : co.audioO m.example_ n = true <;>
          simp [create_card_for_meaning, hb, ha]
    dsimp only
    simp only [List.mem_append, List.mem_cons]
    exact Or.inl (Or.inr (Or.inr hmemadd))
  · by_cases hl : lang = "en" <;> simp [create_card_for_meaning, create_card_data, hl]

/-- Witness for C9: the file containing only "cafe" is emptied after the
card is created under the normalized spelling "café". -/
theorem C9_checkpoint_original_spelling_witness :
    (cmd_batch co9 true "cafe" "es" [""]).2.2 = some "" ∧
    (cmd_batch co9 true "cafe" "es" [""]).2.1 = 0 ∧
    ∃ (card : AnkiCard) (deck : String),
      Ev.addNote card deck ∈ (cmd_batch co9 true "cafe" "es" [""]).1 ∧ card.word = "café" :=
  C9_checkpoint_original_spelling co9 "cafe" "café" "es" mBench
    (by decide) (by decide) (by decide) (by decide) (by decide)
    (by decide) (by decide) rfl (fun _ _ => rfl)

end Chispa
